import Mathlib

/-!
# Verification of the Omniorbase agent runtime core

A shallow embedding, in Lean 4, of the decision / dispatch / memory /
adaptation loop of the Omniorbase repository:

* `AgentEngine` (`src/src/lib/agent/agent-engine.ts`): message processing,
  intent-driven action selection, tool dispatch under a safety gate,
  bounded conversation memory, state export / import.
* `LearningEngine` (the unnamed learning module): lexical pattern
  extraction, a confidence-weighted pattern table, rolling performance
  history, and rule-based behavior adaptation.

Conventions of the embedding:

* JavaScript numbers are modelled as exact rationals (`ℚ`); array indices
  and lengths as `Nat`.  The constants of the source (`0.8`, `0.7`, `0.6`,
  `0.5`, `0.1`, `0.05`) are all exactly representable and the source only
  adds / subtracts / compares them, so the rational model matches the JS
  float semantics on every computation these theorems evaluate.
* Fallible JS code (`throw` / `try` / `catch`, rejected promises) is
  modelled with `Except JsError`.  A JS function that mutates `this` is
  modelled by explicit state passing: it takes and returns the state.
* `uuidv4()` identifiers and `Date` timestamps are dropped from the
  records: no claim mentions them, and no control flow of the translated
  functions inspects them.
* JS `Map` objects (insertion ordered, keys unique) are modelled as
  association lists; `Map.prototype.values()` is the list itself.
-/

namespace Omniorbase

/-- A thrown JavaScript error, carrying its `message` string.
`typeError` marks errors raised by the JS runtime itself (property access
on `undefined`); `thrown` marks errors raised by user code. -/
inductive JsError : Type
  | typeError (message : String)
  | thrown (message : String)
  deriving DecidableEq, Repr

/-- The `message` property of a JS error. -/
def JsError.message : JsError → String
  | .typeError m => m
  | .thrown m => m

/-- JS `arr.slice(-n)` for a non-negative `n`, as used by the source's
truncation code.  For `n ≥ 1` it returns the last `min n arr.length`
elements.  For `n = 0` JavaScript evaluates `slice(-0)` = `slice(0)`,
which returns the WHOLE array (ToIntegerOrInfinity maps `-0` to `0`),
not the empty suffix — this quirk is load-bearing for the capacity-0
behavior of `storeMemory`. -/
def jsSliceLast (n : Nat) (l : List α) : List α :=
  if n = 0 then l else l.drop (l.length - n)

/-- The tool category union type of `types.ts`:
`'file' | 'web' | 'code' | 'system' | 'deployment' | 'communication'`. -/
inductive ToolCategory : Type
  | file | web | code | system | deployment | communication
  deriving DecidableEq, Repr

/-- The string carried by a `ToolCategory` value. -/
def ToolCategory.str : ToolCategory → String
  | .file => "file"
  | .web => "web"
  | .code => "code"
  | .system => "system"
  | .deployment => "deployment"
  | .communication => "communication"

/-- Opaque tool parameters / extracted entities (a JSON object is modelled
as an association list of string pairs; the engine never inspects it). -/
abbrev Params := List (String × String)

/-- `AgentTool` of `types.ts`.  `execute` returns a serialized result or
throws; the optional `safetyCheck` is a JS function and may also throw,
which the model makes explicit with `Except`.  The `description` and
`parameters` schema fields are dropped: no translated control flow reads
them. -/
structure AgentTool : Type where
  id : String
  name : String
  category : ToolCategory
  execute : Params → Except JsError String
  safetyCheck : Option (Params → Except JsError Bool)

/-- The `safetyLevel` union `'low' | 'medium' | 'high'` of `AgentConfig`. -/
inductive SafetyLevel : Type
  | low | medium | high
  deriving DecidableEq, Repr

/-- `AgentConfig` of `types.ts` (the `name`, `description`, `capabilities`
metadata fields are dropped: nothing translated reads them). -/
structure AgentConfig : Type where
  safetyLevel : SafetyLevel
  learningEnabled : Bool
  maxMemorySize : Nat
  tools : List AgentTool

/-- Message roles of `AgentMessage`. -/
inductive Role : Type
  | user | assistant | system
  deriving DecidableEq, Repr

/-- `AgentMessage` of `types.ts` (id / timestamp / metadata dropped, see
the file header). -/
structure AgentMessage : Type where
  role : Role
  content : String
  deriving DecidableEq, Repr

/-- The decision type union of `AgentDecision`. -/
inductive DecisionType : Type
  | tool_execution | response_generation | planning | learning
  deriving DecidableEq, Repr

/-- The string form of a decision type, as stored into pattern entries by
the learning engine (`response: decision.type`). -/
def DecisionType.str : DecisionType → String
  | .tool_execution => "tool_execution"
  | .response_generation => "response_generation"
  | .planning => "planning"
  | .learning => "learning"

/-- The classifier output consumed by `determineBestAction`: the JSON
object `{intent, entities, urgency, complexity}` produced by
`analyzeIntent`. -/
structure Intent : Type where
  intent : String
  entities : Params
  urgency : String
  complexity : String
  deriving DecidableEq, Repr

/-- The `action` payload of an `AgentDecision`, one shape per branch of
`determineBestAction`: `{toolId, parameters}` for tool execution,
`{intent, entities}` for planning, `{message}` for reply generation. -/
inductive ActionPayload : Type
  | toolCall (toolId : String) (parameters : Params)
  | planFor (intent : Intent)
  | replyTo (message : String)
  deriving DecidableEq, Repr

/-- `AgentDecision` of `types.ts` (id / timestamp dropped). -/
structure AgentDecision : Type where
  type : DecisionType
  confidence : ℚ
  reasoning : String
  action : ActionPayload
  deriving DecidableEq, Repr

/-- The `content` payload of an `AgentMemory` record, one shape per call
site of `storeMemory` in `agent-engine.ts`. -/
inductive MemoryContent : Type
  | conversation (userMessage assistantMessage : AgentMessage)
      (decision : AgentDecision)
  | toolResult (toolId : String) (parameters : Params) (result : String)
  | learned (message : String)
  deriving DecidableEq, Repr

/-- `AgentMemory` of `types.ts` (id / timestamp / relevance dropped).  The
`type` string is kept alongside the content, exactly as the source sets
both fields at each call site. -/
structure AgentMemory : Type where
  type : String
  content : MemoryContent
  deriving DecidableEq, Repr

/-- The `performance` sub-record of `AgentState`. -/
structure Performance : Type where
  totalInteractions : Nat
  successfulActions : Nat
  averageResponseTime : ℚ
  learningProgress : ℚ
  deriving DecidableEq, Repr

/-- `AgentState` of `types.ts`.  The `config.tools` list lives inside
`config`; the engine's separate `tools` map is modelled in `Engine`. -/
structure AgentState : Type where
  config : AgentConfig
  messages : List AgentMessage
  memory : List AgentMemory
  decisions : List AgentDecision
  performance : Performance

/-- The `AgentEngine` class: its `state` field plus its private `tools`
map (association list in registration order, ids unique by construction). -/
structure Engine : Type where
  state : AgentState
  tools : List AgentTool

/-- `storeMemory` (`agent-engine.ts` lines 266–273): push the record, then
if `memory.length > maxMemorySize` truncate with
`memory.slice(-maxMemorySize)`. -/
def storeMemory (maxMemorySize : Nat) (memory : List AgentMemory)
    (record : AgentMemory) : List AgentMemory :=
  let m := memory ++ [record]
  if maxMemorySize < m.length then jsSliceLast maxMemorySize m else m

/-- One `storeMemory` step equals dropping the overflow prefix, provided
the capacity is at least 1 (so that `slice(-C)` really truncates). -/
theorem storeMemory_eq_drop (C : Nat) (hC : 1 ≤ C)
    (memory : List AgentMemory) (record : AgentMemory) :
    storeMemory C memory record =
      (memory ++ [record]).drop ((memory.length + 1) - C) := by
  unfold storeMemory jsSliceLast
  have hlen : (memory ++ [record]).length = memory.length + 1 := by
    simp
  by_cases h : C < (memory ++ [record]).length
  · rw [if_pos h, if_neg (by omega), hlen]
  · rw [if_neg h]
    have : (memory.length + 1) - C = 0 := by omega
    rw [this, List.drop_zero]

/-- Folding `storeMemory` over a batch of insertions, from any start state
within capacity, keeps exactly the most recent `C` records. -/
theorem foldl_storeMemory_eq_drop (C : Nat) (hC : 1 ≤ C) :
    ∀ (records acc : List AgentMemory), acc.length ≤ C →
      records.foldl (storeMemory C) acc =
        (acc ++ records).drop ((acc.length + records.length) - C) := by
  intro records
  induction records with
  | nil =>
      intro acc hacc
      simp only [List.foldl_nil, List.append_nil, List.length_nil,
        Nat.add_zero]
      have : acc.length - C = 0 := by omega
      rw [this, List.drop_zero]
  | cons r rs ih =>
      intro acc hacc
      rw [List.foldl_cons, storeMemory_eq_drop C hC acc r]
      have hstep : ((acc ++ [r]).drop ((acc.length + 1) - C)).length ≤ C := by
        simp only [List.length_drop, List.length_append, List.length_cons,
          List.length_nil]
        omega
      rw [ih _ hstep]
      have hdlen : ((acc ++ [r]).drop ((acc.length + 1) - C)).length
          = (acc.length + 1) - ((acc.length + 1) - C) := by
        simp
      rw [hdlen]
      have hsplit : ((acc ++ [r]) ++ rs).drop ((acc.length + 1) - C)
          = (acc ++ [r]).drop ((acc.length + 1) - C) ++ rs :=
        List.drop_append_of_le_length (by simp)
      rw [← hsplit, List.drop_drop]
      have harr : (acc ++ [r]) ++ rs = acc ++ r :: rs := by simp
      rw [harr]
      congr 1
      simp only [List.length_cons]
      omega

/-- A concrete memory record for scenarios (any record value works: the
store never inspects its records). -/
def sampleRecord (s : String) : AgentMemory :=
  { type := "learning", content := .learned s }

/-- Remove the first occurrence of `pat` from a character list
(helper for `jsReplaceFirst`; structural recursion so that the kernel can
evaluate it on literals). -/
def removeFirstOccur (pat : List Char) : List Char → List Char
  | [] => []
  | c :: cs =>
      if pat.isPrefixOf (c :: cs) then (c :: cs).drop pat.length
      else c :: removeFirstOccur pat cs

/-- JS `s.replace(pat, '')` for a plain (non-regex) pattern: remove the
first occurrence of `pat` from `s`, if any. -/
def jsReplaceFirst (s pat : String) : String :=
  String.mk (removeFirstOccur pat.data s.data)

/-- The intent → category mapping of `determineBestAction` (line 151):
`primaryIntent.replace('_operation', '').replace('_search', '')
.replace('_generation', '')`. -/
def categoryOfIntent (primaryIntent : String) : String :=
  jsReplaceFirst (jsReplaceFirst (jsReplaceFirst primaryIntent
    "_operation") "_search") "_generation"

/-- The `relevantTools` filter of `determineBestAction` (lines 150–152),
over the tools map's values in registration order. -/
def relevantTools (tools : List AgentTool) (primaryIntent : String) :
    List AgentTool :=
  tools.filter (fun t => t.category.str == categoryOfIntent primaryIntent)

/-- The context object built by `getContext` (lines 257–264).  Its fields
are exactly the four properties the source creates — in particular there
is NO `messages` property (the message log is exposed as
`recentMessages`), which is what makes the default branch of
`determineBestAction` throw. -/
structure Context : Type where
  recentMessages : List AgentMessage
  memory : List AgentMemory
  performance : Performance
  availableTools : List String

/-- `getContext` (lines 257–264): the last 10 messages, last 20 memory
records, performance counters and tool ids. -/
def getContext (st : AgentState) (tools : List AgentTool) : Context :=
  { recentMessages := jsSliceLast 10 st.messages
    memory := jsSliceLast 20 st.memory
    performance := st.performance
    availableTools := tools.map (·.id) }

/-- The deterministic fallback intent of `analyzeIntent` (lines 135–143),
returned whenever the classifier call or the parse of its answer throws. -/
def fallbackIntent : Intent :=
  { intent := "response_generation", entities := [], urgency := "medium",
    complexity := "simple" }

/-- `analyzeIntent` (lines 112–144).  The external classifier call is an
input to the model: `Except.ok` is a successfully parsed, well-formed
classification; `Except.error` is a classifier failure (SDK import error,
network error, or unparsable answer), which the source's `catch` maps to
the fallback intent. -/
def analyzeIntent (classifier : Except JsError Intent) : Intent :=
  match classifier with
  | .ok i => i
  | .error _ => fallbackIntent

/-- The TypeError thrown by the default branch of `determineBestAction`
(line 176): the branch evaluates
`context.messages[context.messages.length - 1]?.content`, but the context
built by `getContext` has no `messages` property, so `context.messages`
is `undefined` and reading its `length` throws before the optional chain
can guard anything. -/
def replyBranchError : JsError :=
  .typeError "Cannot read properties of undefined (reading length)"

/-- `determineBestAction` (lines 146–178), translated branch by branch:
1. some tool's category equals the stripped intent AND the safety level
   is not `high` → `tool_execution` against the first relevant tool,
   confidence 0.8;
2. else if `complexity === 'complex'` and learning is enabled →
   `planning`, confidence 0.7;
3. else the `response_generation` branch, whose `action` construction
   dereferences the missing `context.messages` property and therefore
   throws a TypeError (see `replyBranchError`). -/
def determineBestAction (config : AgentConfig) (tools : List AgentTool)
    (intent : Intent) (_context : Context) : Except JsError AgentDecision :=
  let fallthrough : Except JsError AgentDecision :=
    if intent.complexity = "complex" ∧ config.learningEnabled = true then
      .ok { type := .planning, confidence := 0.7,
            reasoning := "Complex request requires planning",
            action := .planFor intent }
    else
      .error replyBranchError
  match relevantTools tools intent.intent with
  | t :: rest =>
      if config.safetyLevel ≠ SafetyLevel.high then
        .ok { type := .tool_execution, confidence := 0.8,
              reasoning := "Found " ++ toString (rest.length + 1)
                ++ " relevant tools for intent: " ++ intent.intent,
              action := .toolCall t.id intent.entities }
      else fallthrough
  | [] => fallthrough

/-- `makeDecision` (lines 93–110): build the context, classify, select.
There is no `try` around any of this, so an error from
`determineBestAction` propagates to the caller of `makeDecision`. -/
def makeDecision (st : AgentState) (tools : List AgentTool)
    (classifier : Except JsError Intent) : Except JsError AgentDecision :=
  determineBestAction st.config tools (analyzeIntent classifier)
    (getContext st tools)

/-- Stripping the suffixes from the fallback intent string yields the
category `"response"`. -/
theorem categoryOfIntent_fallback :
    categoryOfIntent fallbackIntent.intent = "response" := by decide

/-- No tool category string is the stripped fallback category
`"response"`. -/
theorem toolCategory_str_ne_response (c : ToolCategory) :
    c.str ≠ "response" := by
  cases c <;> decide

/-- The fallback intent maps to category `"response"`, which no registered
tool can carry, so its relevant-tool list is empty for every tools map. -/
theorem relevantTools_fallback_nil (tools : List AgentTool) :
    relevantTools tools fallbackIntent.intent = [] := by
  apply List.filter_eq_nil_iff.mpr
  intro t _
  have h := toolCategory_str_ne_response t.category
  simp only [Bool.not_eq_true, beq_eq_false_iff_ne, ne_eq]
  intro hc
  exact h (hc.trans categoryOfIntent_fallback)

/-- C1 (amended): for every configured capacity `C ≥ 1` and every
sequence of `storeMemory` insertions starting from the empty store, the
store holds at most `C` records after each insertion, and it holds
exactly the `min C total` most recent records in insertion order (strict
FIFO eviction of the oldest).  The `C ≥ 1` bound is forced by the
capacity-0 counterexample: `slice(-0)` never truncates. -/
theorem storeMemory_bounded_fifo (C : Nat) (hC : 1 ≤ C)
    (records : List AgentMemory) :
    (records.foldl (storeMemory C) []).length ≤ C ∧
    records.foldl (storeMemory C) []
      = records.drop (records.length - C) := by
  have h := foldl_storeMemory_eq_drop C hC records [] (by simp)
  simp only [List.nil_append, List.length_nil, Nat.zero_add] at h
  refine ⟨?_, h⟩
  rw [h, List.length_drop]
  omega

/-- Witness for C1: with capacity 3, inserting A, B, C, D in order leaves
exactly [B, C, D], within the capacity bound. -/
theorem storeMemory_bounded_fifo_witness :
    ([sampleRecord "A", sampleRecord "B", sampleRecord "C",
        sampleRecord "D"].foldl (storeMemory 3) []).length ≤ 3 ∧
    [sampleRecord "A", sampleRecord "B", sampleRecord "C",
        sampleRecord "D"].foldl (storeMemory 3) []
      = [sampleRecord "B", sampleRecord "C", sampleRecord "D"] := by
  have h := storeMemory_bounded_fifo 3 (by decide)
    [sampleRecord "A", sampleRecord "B", sampleRecord "C",
      sampleRecord "D"]
  exact ⟨h.1, by rw [h.2]; rfl⟩

/-- C1 counterexample: with configured capacity 0 the claimed bound
`size ≤ C` fails after the very first insertion — `memory.slice(-0)` is
`slice(0)` in JavaScript and copies the whole array, so the store grows
without bound. -/
theorem storeMemory_capacity_zero_counterexample :
    ([sampleRecord "A", sampleRecord "B"].foldl (storeMemory 0) []).length
        = 2 ∧
    ¬ (([sampleRecord "A", sampleRecord "B"].foldl
        (storeMemory 0) []).length ≤ 0) := by
  decide

/-- C2: with a classifier that always fails, `makeDecision` does NOT
return the degraded reply Decision the spec promises — the fallback
intent reaches the default branch of `determineBestAction`, whose action
construction reads `context.messages.length` on a context that only has a
`recentMessages` property, so a TypeError propagates to the caller (the
`makeDecision` call in `processMessage` sits outside the `try` block).
This holds for every engine state and tools map. -/
theorem makeDecision_failing_classifier_throws (st : AgentState)
    (tools : List AgentTool) (e : JsError) :
    makeDecision st tools (.error e) = .error replyBranchError := by
  unfold makeDecision analyzeIntent determineBestAction
  rw [relevantTools_fallback_nil]
  simp [fallbackIntent]

/-- `storeMemory` as the engine method: stores into `state.memory` under
the configured capacity. -/
def storeMemoryState (st : AgentState) (record : AgentMemory) : AgentState :=
  { st with memory := storeMemory st.config.maxMemorySize st.memory record }

/-- `updatePerformance` (lines 275–285): bump the interaction counters and
fold the response time into the running average. -/
def updatePerformance (responseTime : ℚ) (successful : Bool)
    (p : Performance) : Performance :=
  let total := p.totalInteractions + 1
  { p with
    totalInteractions := total
    successfulActions := p.successfulActions + (if successful then 1 else 0)
    averageResponseTime :=
      (p.averageResponseTime * ((total : ℚ) - 1) + responseTime) / (total : ℚ) }

/-- The engine's `tools.get(toolId)` lookup: first registered tool with
the given id (the map's keys are unique, so first = only). -/
def toolsGet (tools : List AgentTool) (toolId : String) : Option AgentTool :=
  match tools with
  | [] => none
  | t :: rest => if t.id = toolId then some t else toolsGet rest toolId

/-- `executeTool` (lines 180–208).  The safety predicate runs OUTSIDE the
`try` block, so a throwing `safetyCheck` propagates out of `executeTool`;
a throwing `execute` is caught and reported as text.  A successful
`execute` stores one `tool_result` record.  The catch-all arm models JS
destructuring `{toolId}` out of a non-tool payload: `toolId` is
`undefined`, the map lookup misses, and the template literal prints
`undefined`. -/
def executeTool (tools : List AgentTool) (st : AgentState)
    (action : ActionPayload) : Except JsError (String × AgentState) :=
  match action with
  | .toolCall toolId parameters =>
      match toolsGet tools toolId with
      | none => .ok ("Tool not found: " ++ toolId, st)
      | some tool =>
          let tryRun : Except JsError (String × AgentState) :=
            match tool.execute parameters with
            | .ok result =>
                .ok ("Successfully executed " ++ tool.name ++ ". Result: "
                      ++ result,
                  storeMemoryState st
                    { type := "tool_result",
                      content := .toolResult toolId parameters result })
            | .error err =>
                .ok ("Error executing " ++ tool.name ++ ": " ++ err.message,
                  st)
          match tool.safetyCheck with
          | some check =>
              match check parameters with
              | .error err => .error err
              | .ok false =>
                  .ok ("Safety check failed for tool: " ++ tool.name, st)
              | .ok true => tryRun
          | none => tryRun
  | _ => .ok ("Tool not found: undefined", st)

/-- `generateResponse` (lines 210–237).  The text-generation call is an
input to the model; its failure is caught and degraded to the apology
echo. -/
def generateResponse (generator : Except JsError String) (message : String) :
    String :=
  match generator with
  | .ok text => text
  | .error _ =>
      "I understand your message: \"" ++ message
        ++ "\". However, I'm having trouble generating a response right now. Please try again."

/-- `createPlan` (lines 239–241): the fixed plan template around the
verbatim message. -/
def createPlan (message : String) : String :=
  "I'll create a plan to handle your complex request: \"" ++ message
    ++ "\"\n\nThis requires multiple steps. Let me break it down:\n1. Analyze requirements\n2. Identify necessary tools\n3. Execute step-by-step\n4. Validate results\n\nWould you like me to proceed with this plan?"

/-- The `learnFromInteraction` METHOD of `AgentEngine` (lines 243–255):
bump `learningProgress`, store a `learning` record, return fixed text. -/
def learnFromInteractionEngine (st : AgentState) (message : String) :
    String × AgentState :=
  let st1 := { st with performance :=
    { st.performance with
        learningProgress := st.performance.learningProgress + 0.1 } }
  ("I'm learning from this interaction to better serve you in the future.",
    storeMemoryState st1 { type := "learning", content := .learned message })

/-- The per-request external inputs of `processMessage`: the classifier
outcome, the text-generator outcome and the measured response time. -/
structure ProcessInputs : Type where
  classifier : Except JsError Intent
  generator : Except JsError String
  responseTime : ℚ

/-- The user message object built at the top of `processMessage`. -/
def userMsg (message : String) : AgentMessage :=
  { role := .user, content := message }

/-- The state right after the user message is pushed (line 38). -/
def afterUser (st : AgentState) (message : String) : AgentState :=
  { st with messages := st.messages ++ [userMsg message] }

/-- The state right after the decision is pushed (line 42). -/
def afterDecision (st : AgentState) (d : AgentDecision) : AgentState :=
  { st with decisions := st.decisions ++ [d] }

/-- The `switch (decision.type)` block of `processMessage` (lines 47–62),
one arm per decision type.  Only the tool arm can throw (via an uncaught
`safetyCheck` error). -/
def executeDecisionAction (tools : List AgentTool) (st : AgentState)
    (decision : AgentDecision) (inp : ProcessInputs) (message : String) :
    Except JsError (String × AgentState) :=
  match decision.type with
  | .tool_execution => executeTool tools st decision.action
  | .response_generation => .ok (generateResponse inp.generator message, st)
  | .planning => .ok (createPlan message, st)
  | .learning => .ok (learnFromInteractionEngine st message)

/-- `processMessage` (lines 28–91).  The user message and the decision are
pushed BEFORE the `try` block; the `catch` converts an uncaught execution
error into the `I encountered an error` reply WITHOUT pushing an
assistant message or a conversation record; and the `makeDecision` call
itself sits outside the `try`, so its errors escape `processMessage`
entirely (first component `.error`). -/
def processMessage (e : Engine) (message : String) (inp : ProcessInputs) :
    Except JsError String × Engine :=
  let st1 := afterUser e.state message
  match makeDecision st1 e.tools inp.classifier with
  | .error err => (.error err, { e with state := st1 })
  | .ok decision =>
      let st2 := afterDecision st1 decision
      match executeDecisionAction e.tools st2 decision inp message with
      | .ok (response, st3) =>
          let p4 := updatePerformance inp.responseTime true st3.performance
          let st4 := { st3 with performance := p4 }
          let assistantMessage : AgentMessage :=
            { role := .assistant, content := response }
          let st5 := { st4 with messages := st4.messages ++ [assistantMessage] }
          let conv : AgentMemory :=
            { type := "conversation",
              content := .conversation (userMsg message) assistantMessage
                decision }
          (.ok response, { e with state := storeMemoryState st5 conv })
      | .error err =>
          let p4 := updatePerformance inp.responseTime false st2.performance
          (.ok ("I encountered an error: " ++ err.message),
            { e with state := { st2 with performance := p4 } })

/-- Every `storeMemory` result ends with the record just stored (whatever
the capacity: truncation only ever removes a prefix). -/
theorem storeMemory_getLast (C : Nat) (mem : List AgentMemory)
    (r : AgentMemory) : (storeMemory C mem r).getLast? = some r := by
  unfold storeMemory jsSliceLast
  by_cases hC : C = 0
  · subst hC
    by_cases h : 0 < (mem ++ [r]).length
    · rw [if_pos h, if_pos rfl, List.getLast?_concat]
    · rw [if_neg h, List.getLast?_concat]
  · by_cases h : C < (mem ++ [r]).length
    · rw [if_pos h, if_neg hC]
      have hk : (mem ++ [r]).length - C ≤ mem.length := by
        simp only [List.length_append, List.length_cons, List.length_nil]
        omega
      rw [List.drop_append_of_le_length hk, List.getLast?_concat]
    · rw [if_neg h, List.getLast?_concat]

/-- The `switch` block never touches the message log, the decision log or
the config: whichever arm runs, a successful execution returns a state
whose `messages`, `decisions` and `config` are those it was given. -/
theorem executeDecisionAction_frame (tools : List AgentTool)
    (st : AgentState) (d : AgentDecision) (inp : ProcessInputs)
    (message : String) (r : String) (st' : AgentState)
    (h : executeDecisionAction tools st d inp message = .ok (r, st')) :
    st'.messages = st.messages ∧ st'.decisions = st.decisions ∧
      st'.config = st.config := by
  unfold executeDecisionAction executeTool learnFromInteractionEngine
    storeMemoryState at h
  repeat' split at h
  all_goals
    simp only [Except.ok.injEq, Prod.mk.injEq, reduceCtorEq] at h
  all_goals
    obtain ⟨-, h2⟩ := h
  all_goals subst h2
  all_goals exact ⟨rfl, rfl, rfl⟩

/-- A refused safety check forces the `Safety check failed` result with
the state unchanged, whatever the tool's `execute` function is. -/
theorem executeTool_eq_of_safety_false (tools : List AgentTool)
    (st : AgentState) (toolId : String) (params : Params)
    (tool : AgentTool) (check : Params → Except JsError Bool)
    (hfind : toolsGet tools toolId = some tool)
    (hcheck : tool.safetyCheck = some check)
    (hfalse : check params = .ok false) :
    executeTool tools st (.toolCall toolId params)
      = .ok ("Safety check failed for tool: " ++ tool.name, st) := by
  simp only [executeTool, hfind, hcheck, hfalse]

/-- Overriding the `execute` field of the matched tool commutes with the
map lookup: the lookup still finds the same tool, with only `execute`
changed. -/
theorem toolsGet_map_execute_override (toolId : String)
    (g : Params → Except JsError String) :
    ∀ (tools : List AgentTool) (tool : AgentTool),
      toolsGet tools toolId = some tool →
      toolsGet (tools.map (fun t => if t.id = toolId then
          { t with execute := g } else t)) toolId
        = some { tool with execute := g } := by
  intro tools
  induction tools with
  | nil => intro tool h; simp [toolsGet] at h
  | cons a l ih =>
      intro tool h
      by_cases ha : a.id = toolId
      · rw [toolsGet, if_pos ha] at h
        injection h with h
        subst h
        simp only [List.map_cons, if_pos ha]
        rw [toolsGet, if_pos ha]
      · rw [toolsGet, if_neg ha] at h
        simp only [List.map_cons, if_neg ha]
        rw [toolsGet, if_neg ha]
        exact ih tool h

/-- C6: for a registered tool whose `safetyCheck` returns `false` on the
supplied parameters, `executeTool` returns the `Safety check failed`
result with the state unchanged — in particular zero `tool_result`
records are stored — and the result does not depend on the tool's
`execute` function at all (it is never called): replacing `execute` by an
arbitrary `g` leaves the outcome identical. -/
theorem executeTool_safetyCheck_false (tools : List AgentTool)
    (st : AgentState) (toolId : String) (params : Params)
    (tool : AgentTool) (check : Params → Except JsError Bool)
    (hfind : toolsGet tools toolId = some tool)
    (hcheck : tool.safetyCheck = some check)
    (hfalse : check params = .ok false) :
    executeTool tools st (.toolCall toolId params)
        = .ok ("Safety check failed for tool: " ++ tool.name, st) ∧
    ∀ g : Params → Except JsError String,
      executeTool (tools.map (fun t => if t.id = toolId then
          { t with execute := g } else t)) st (.toolCall toolId params)
        = .ok ("Safety check failed for tool: " ++ tool.name, st) := by
  refine ⟨executeTool_eq_of_safety_false tools st toolId params tool check
    hfind hcheck hfalse, ?_⟩
  intro g
  exact executeTool_eq_of_safety_false _ st toolId params
    { tool with execute := g } check
    (toolsGet_map_execute_override toolId g tools tool hfind) hcheck hfalse

/-- A tool whose safety predicate always refuses. -/
def toolDenied : AgentTool :=
  { id := "t1", name := "Denied", category := .system,
    execute := fun _ => .ok "ran",
    safetyCheck := some (fun _ => .ok false) }

/-- A baseline configuration: medium safety, learning on, capacity 100. -/
def config0 : AgentConfig :=
  { safetyLevel := .medium, learningEnabled := true, maxMemorySize := 100,
    tools := [] }

/-- The empty performance counters a fresh engine starts with. -/
def perf0 : Performance :=
  { totalInteractions := 0, successfulActions := 0,
    averageResponseTime := 0, learningProgress := 0 }

/-- A fresh engine state under `config0`. -/
def state0 : AgentState :=
  { config := config0, messages := [], memory := [], decisions := [],
    performance := perf0 }

/-- Witness for C6: the refused invocation at a concrete tool, and the
same outcome after swapping in a throwing `execute`. -/
theorem executeTool_safetyCheck_false_witness :
    executeTool [toolDenied] state0 (.toolCall "t1" [])
        = .ok ("Safety check failed for tool: " ++ toolDenied.name,
            state0) ∧
    executeTool ([toolDenied].map (fun t => if t.id = "t1" then
        { t with execute := fun _ => .error (.thrown "boom") } else t))
        state0 (.toolCall "t1" [])
        = .ok ("Safety check failed for tool: " ++ toolDenied.name,
            state0) := by
  have h := executeTool_safetyCheck_false [toolDenied] state0 "t1" []
    toolDenied (fun _ => .ok false) rfl rfl rfl
  exact ⟨h.1, h.2 (fun _ => .error (.thrown "boom"))⟩

/-- A plain file tool whose execution succeeds. -/
def toolFile : AgentTool :=
  { id := "file_read", name := "Read File", category := .file,
    execute := fun _ => .ok "contents", safetyCheck := none }

/-- `config0` with the file tool registered. -/
def cfg5 : AgentConfig := { config0 with tools := [toolFile] }

/-- A concrete context (its content is irrelevant to every branch that
returns: only the throwing branch would read it, and what it reads does
not exist). -/
def ctx5 : Context := getContext state0 [toolFile]

/-- An intent matching the file tool's category. -/
def intentFileOp : Intent :=
  { intent := "file_operation", entities := [("path", "a.txt")],
    urgency := "low", complexity := "simple" }

/-- An intent matching no tool, declared complex. -/
def intentDeep : Intent :=
  { intent := "deep_question", entities := [], urgency := "low",
    complexity := "complex" }

/-- An intent matching no tool, declared simple: reaches the default
(reply) branch. -/
def intentGreeting : Intent :=
  { intent := "greeting", entities := [], urgency := "low",
    complexity := "simple" }

/-- C5: the three-branch decision table of `determineBestAction`,
exercised at one concrete input per branch.  Branches 1 and 2 behave as
specified (first matching tool at confidence 0.8; planning at confidence
0.7).  Branch 3 does NOT return the specified reply decision with
confidence 0.6: it throws the `context.messages` TypeError. -/
theorem determineBestAction_reply_branch_throws :
    determineBestAction cfg5 [toolFile] intentFileOp ctx5
      = .ok { type := .tool_execution, confidence := 0.8,
              reasoning := "Found 1 relevant tools for intent: file_operation",
              action := .toolCall "file_read" [("path", "a.txt")] } ∧
    determineBestAction cfg5 [toolFile] intentDeep ctx5
      = .ok { type := .planning, confidence := 0.7,
              reasoning := "Complex request requires planning",
              action := .planFor intentDeep } ∧
    determineBestAction cfg5 [toolFile] intentGreeting ctx5
      = .error replyBranchError := by
  refine ⟨rfl, rfl, rfl⟩

/-- C3 (amended): the per-request shape of `processMessage`.
1. When the decision succeeds and the chosen action executes without an
   uncaught throw, the user Message, exactly one Decision, exactly one
   assistant Message and one pairing conversation MemoryRecord (the
   newest memory entry) are all appended — the full triple.
2. When the action throws uncaught (a throwing `safetyCheck`), the user
   Message and the Decision survive but NO assistant message and NO
   conversation record are appended; the error is returned as text.
3. When the decision engine itself throws (its default reply branch),
   only the user Message is appended and the error escapes to the caller. -/
theorem processMessage_triple_paths (e : Engine) (message : String)
    (inp : ProcessInputs) :
    (∀ d response st3,
        makeDecision (afterUser e.state message) e.tools inp.classifier
            = .ok d →
        executeDecisionAction e.tools
            (afterDecision (afterUser e.state message) d) d inp message
            = .ok (response, st3) →
        (processMessage e message inp).1 = .ok response ∧
        (processMessage e message inp).2.state.messages
          = e.state.messages
              ++ [userMsg message, AgentMessage.mk .assistant response] ∧
        (processMessage e message inp).2.state.decisions
          = e.state.decisions ++ [d] ∧
        (processMessage e message inp).2.state.memory.getLast?
          = some { type := "conversation",
                   content := .conversation (userMsg message)
                     (AgentMessage.mk .assistant response) d }) ∧
    (∀ d err,
        makeDecision (afterUser e.state message) e.tools inp.classifier
            = .ok d →
        executeDecisionAction e.tools
            (afterDecision (afterUser e.state message) d) d inp message
            = .error err →
        (processMessage e message inp).1
          = .ok ("I encountered an error: " ++ err.message) ∧
        (processMessage e message inp).2.state.messages
          = e.state.messages ++ [userMsg message] ∧
        (processMessage e message inp).2.state.decisions
          = e.state.decisions ++ [d] ∧
        (processMessage e message inp).2.state.memory = e.state.memory) ∧
    (∀ err,
        makeDecision (afterUser e.state message) e.tools inp.classifier
            = .error err →
        (processMessage e message inp).1 = .error err ∧
        (processMessage e message inp).2.state.messages
          = e.state.messages ++ [userMsg message] ∧
        (processMessage e message inp).2.state.decisions
          = e.state.decisions ∧
        (processMessage e message inp).2.state.memory
          = e.state.memory) := by
  refine ⟨?_, ?_, ?_⟩
  · intro d response st3 hd hx
    obtain ⟨hm, hdec, -⟩ := executeDecisionAction_frame e.tools
      (afterDecision (afterUser e.state message) d) d inp message response
      st3 hx
    have hpm : processMessage e message inp
        = (.ok response,
           ⟨storeMemoryState
             { st3 with
               performance :=
                 updatePerformance inp.responseTime true st3.performance,
               messages :=
                 st3.messages ++ [AgentMessage.mk .assistant response] }
             ⟨"conversation",
               .conversation (userMsg message)
                 (AgentMessage.mk .assistant response) d⟩,
             e.tools⟩) := by
      simp only [processMessage, hd, hx]
    rw [hpm]
    refine ⟨rfl, ?_, ?_, ?_⟩
    · simp [storeMemoryState, hm, afterDecision, afterUser]
    · simp [storeMemoryState, hdec, afterDecision, afterUser]
    · simp [storeMemoryState, storeMemory_getLast]
  · intro d err hd hx
    have hpm : processMessage e message inp
        = (.ok ("I encountered an error: " ++ err.message),
           ⟨{ afterDecision (afterUser e.state message) d with
              performance := updatePerformance inp.responseTime false
                (afterDecision (afterUser e.state message) d).performance },
             e.tools⟩) := by
      simp only [processMessage, hd, hx]
    rw [hpm]
    exact ⟨rfl, rfl, rfl, rfl⟩
  · intro err hd
    have hpm : processMessage e message inp
        = (.error err, ⟨afterUser e.state message, e.tools⟩) := by
      simp only [processMessage, hd]
    rw [hpm]
    exact ⟨rfl, rfl, rfl, rfl⟩

/-- An engine with no tools under `config0`. -/
def e0 : Engine := { state := state0, tools := [] }

/-- Inputs whose classifier yields the complex `intentDeep`
classification. -/
def inpPlan : ProcessInputs :=
  { classifier := .ok intentDeep, generator := .ok "generated",
    responseTime := 7 }

/-- The planning decision `makeDecision` produces for `inpPlan` on `e0`. -/
def dPlan : AgentDecision :=
  { type := .planning, confidence := 0.7,
    reasoning := "Complex request requires planning",
    action := .planFor intentDeep }

/-- A file tool whose safety predicate THROWS (uncaught by
`executeTool`). -/
def toolCrash : AgentTool :=
  { id := "file1", name := "Filer", category := .file,
    execute := fun _ => .ok "done",
    safetyCheck := some (fun _ => .error (.thrown "safety check crashed")) }

/-- An engine exposing only the crashing-safety tool. -/
def eBad : Engine := { state := state0, tools := [toolCrash] }

/-- A file-operation intent with no entities. -/
def intentFilePlain : Intent :=
  { intent := "file_operation", entities := [], urgency := "low",
    complexity := "simple" }

/-- Inputs whose classifier routes to the crashing file tool. -/
def inpBad : ProcessInputs :=
  { classifier := .ok intentFilePlain, generator := .ok "unused",
    responseTime := 3 }

/-- The tool decision `makeDecision` produces for `inpBad` on `eBad`. -/
def dTool : AgentDecision :=
  { type := .tool_execution, confidence := 0.8,
    reasoning := "Found 1 relevant tools for intent: file_operation",
    action := .toolCall "file1" [] }

/-- Inputs with a failing classifier. -/
def inpDown : ProcessInputs :=
  { classifier := .error (.thrown "classifier down"),
    generator := .ok "generated", responseTime := 2 }

/-- Witness for C3: each of the three paths at a concrete engine —
a successful planning request, a request whose tool safety check throws,
and a request on which the decision engine itself throws. -/
theorem processMessage_triple_paths_witness :
    (processMessage e0 "m" inpPlan).1 = .ok (createPlan "m") ∧
    (processMessage eBad "read" inpBad).1
      = .ok "I encountered an error: safety check crashed" ∧
    (processMessage e0 "m" inpDown).1 = .error replyBranchError := by
  refine ⟨?_, ?_, ?_⟩
  · exact ((processMessage_triple_paths e0 "m" inpPlan).1 dPlan
      (createPlan "m") (afterDecision (afterUser state0 "m") dPlan)
      rfl rfl).1
  · exact ((processMessage_triple_paths eBad "read" inpBad).2.1 dTool
      (.thrown "safety check crashed") rfl rfl).1
  · exact ((processMessage_triple_paths e0 "m" inpDown).2.2
      replyBranchError rfl).1

/-- C3 counterexample: on `eBad` the decided action's execution fails
(its safety check throws), and after `processMessage` returns, the state
holds the user Message and one Decision but NO assistant message and NO
conversation MemoryRecord — a partial triple survives, contradicting the
claim that the assistant Message always exists and no partial triple
survives a failure. -/
theorem processMessage_partial_triple_counterexample :
    (processMessage eBad "read" inpBad).2.state.decisions.length = 1 ∧
    (processMessage eBad "read" inpBad).2.state.messages
      = [userMsg "read"] ∧
    (processMessage eBad "read" inpBad).2.state.memory = [] := by
  refine ⟨rfl, rfl, rfl⟩

/-- The engine's `state` slot as JavaScript sees it after an import:
either a well-formed `AgentState`, or the raw parsed value of a
structurally invalid document — which is what `this.state = importedState`
installs before the invalidity is discovered. -/
inductive StateVal : Type
  | good (s : AgentState)
  | corrupt (raw : String)

/-- The three semantic classes of `importState` inputs:
* `unparsable`: `JSON.parse` throws (not JSON at all);
* `parsedInvalid`: parses to a value on which the chain
  `importedState.config.tools.forEach` throws a TypeError (`null`, a
  number, an object without `config`, a `config` without an array
  `tools`, ...);
* `parsedState`: parses to a document carrying a config with an iterable
  tool list (modelled as a full `AgentState`; a JSON document can of
  course not carry the tools' closures — the model treats the imported
  descriptors as opaque tool values, exactly as the source stores them
  unchecked). -/
inductive ImportDoc : Type
  | unparsable (raw : String)
  | parsedInvalid (raw : String)
  | parsedState (s : AgentState)

/-- `importState` (lines 313–326), with the source's mutation order made
explicit:
1. `JSON.parse(stateJson)` — on `unparsable` input it throws inside the
   `try`, the `catch` rethrows the typed `Invalid state format` error and
   `this.state` / `this.tools` are untouched;
2. `this.state = importedState` — installs the parsed value;
3. `this.tools.clear()` — empties the tools map;
4. `importedState.config.tools.forEach(...)` — on `parsedInvalid` input
   this property chain throws AFTER steps 2–3 have run; the `catch`
   rethrows the typed error, but the corrupt state and the cleared map
   remain;
5. on `parsedState` input the map is rebuilt from the imported config's
   tool list.
The result is (raised error if any, final state slot, final tools map). -/
def importState (e : Engine) (doc : ImportDoc) :
    Option String × StateVal × List AgentTool :=
  match doc with
  | .unparsable _ => (some "Invalid state format", .good e.state, e.tools)
  | .parsedInvalid raw => (some "Invalid state format", .corrupt raw, [])
  | .parsedState s => (none, .good s, s.config.tools)

/-- C4 (amended): importing either fully succeeds, rebuilding the tools
map from the imported configuration's tool list, or raises the typed
`Invalid state format` error; but the prior state survives the error ONLY
when the document is not parseable as JSON at all.  When the document
parses to a structurally invalid value, the typed error is still raised,
yet the agent state has already been replaced by the parsed value and the
tools map cleared — a partial application. -/
theorem importState_paths (e : Engine) (doc : ImportDoc) :
    (∀ s, doc = .parsedState s →
        importState e doc = (none, .good s, s.config.tools)) ∧
    (∀ raw, doc = .unparsable raw →
        importState e doc
          = (some "Invalid state format", .good e.state, e.tools)) ∧
    (∀ raw, doc = .parsedInvalid raw →
        (importState e doc).1 = some "Invalid state format" ∧
        (importState e doc).2.1 = .corrupt raw ∧
        (importState e doc).2.2 = []) := by
  refine ⟨?_, ?_, ?_⟩ <;> intro x h <;> subst h
  · rfl
  · rfl
  · exact ⟨rfl, rfl, rfl⟩

/-- An engine with a registered tool, for the import scenarios. -/
def eC4 : Engine := { state := state0, tools := [toolFile] }

/-- Witness for C4: the three import paths at concrete documents. -/
theorem importState_paths_witness :
    importState eC4 (.parsedState state0)
      = (none, .good state0, state0.config.tools) ∧
    importState eC4 (.unparsable "not json")
      = (some "Invalid state format", .good eC4.state, eC4.tools) ∧
    (importState eC4 (.parsedInvalid "null")).1
        = some "Invalid state format" ∧
    (importState eC4 (.parsedInvalid "null")).2.1 = .corrupt "null" ∧
    (importState eC4 (.parsedInvalid "null")).2.2 = [] := by
  refine ⟨?_, ?_, ?_, ?_, ?_⟩
  · exact (importState_paths eC4 (.parsedState state0)).1 state0 rfl
  · exact (importState_paths eC4 (.unparsable "not json")).2.1
      "not json" rfl
  · exact ((importState_paths eC4 (.parsedInvalid "null")).2.2
      "null" rfl).1
  · exact ((importState_paths eC4 (.parsedInvalid "null")).2.2
      "null" rfl).2.1
  · exact ((importState_paths eC4 (.parsedInvalid "null")).2.2
      "null" rfl).2.2

/-- C4 counterexample: importing the JSON document `null` (parseable,
structurally invalid) raises the typed format error as claimed, but the
prior agent state is NOT left unchanged and the capability map is NOT
left unchanged — both are clobbered before the invalidity is detected. -/
theorem importState_partial_application_counterexample :
    (importState eC4 (.parsedInvalid "null")).1
        = some "Invalid state format" ∧
    (importState eC4 (.parsedInvalid "null")).2.1 ≠ .good eC4.state ∧
    (importState eC4 (.parsedInvalid "null")).2.2 ≠ eC4.tools := by
  refine ⟨rfl, ?_, ?_⟩
  · intro h
    exact StateVal.noConfusion h
  · intro h
    exact List.noConfusion h

namespace LearningEngine

/-- A pattern-table value: the object stored by `initializePatterns` /
`updatePatternRecognition`.  Seeded entries carry no `occurrences` field
(JS `undefined`, modelled as `none`); the update reads it as
`(occurrences || 0)`. -/
structure PatternData : Type where
  patterns : List String
  response : String
  confidence : ℚ
  occurrences : Option Nat
  deriving DecidableEq, Repr

/-- The `patterns` JS `Map` (insertion ordered) as an association list. -/
abbrev PatternTable := List (String × PatternData)

/-- `Map.get` on the pattern table. -/
def tableGet : PatternTable → String → Option PatternData
  | [], _ => none
  | (k, v) :: rest, key =>
      if k = key then some v else tableGet rest key

/-- `Map.set` on the pattern table: overwrite in place if the key exists,
append otherwise. -/
def tableSet : PatternTable → String → PatternData → PatternTable
  | [], key, v => [(key, v)]
  | (k, w) :: rest, key, v =>
      if k = key then (key, v) :: rest
      else (k, w) :: tableSet rest key v

/-- The five seeded entries of `initializePatterns` (lines 13–44). -/
def initialPatterns : PatternTable :=
  [("greeting",
    { patterns := ["hello", "hi", "hey", "good morning", "good afternoon",
        "good evening"],
      response := "greeting", confidence := 0.9, occurrences := none }),
   ("help_request",
    { patterns := ["help", "assist", "support", "how do i", "can you help"],
      response := "help", confidence := 0.8, occurrences := none }),
   ("file_operation",
    { patterns := ["read file", "write file", "delete file", "create file",
        "list files"],
      response := "file", confidence := 0.7, occurrences := none }),
   ("code_request",
    { patterns := ["generate code", "write code", "create function",
        "implement", "code"],
      response := "code", confidence := 0.8, occurrences := none }),
   ("system_command",
    { patterns := ["run command", "execute", "system", "terminal", "bash"],
      response := "system", confidence := 0.7, occurrences := none })]

/-- The rolling performance entry pushed by `analyzePerformance`
(timestamp dropped). -/
structure PerformanceRec : Type where
  decisionType : DecisionType
  confidence : ℚ
  responseTime : ℚ
  success : Bool
  deriving DecidableEq, Repr

/-- The context object `learnFromInteraction` receives: the performance
counters, the memory length and an optional `responseTime` (the source
reads `context.responseTime || 0`). -/
structure LearnContext : Type where
  performance : Performance
  memoryLength : Nat
  responseTime : Option ℚ

/-- An adaptation rule: a fallible predicate over the context (conditions
are arbitrary JS functions; the seeded ones are total, but an imported
rule or an ill-shaped context makes a condition throw), a named action
and a priority. -/
structure AdaptationRule : Type where
  condition : LearnContext → Except JsError Bool
  action : String
  priority : Nat

/-- Seeded rule 1 (lines 48–52): average response time above 5000 ms. -/
def responseTimeRule : AdaptationRule :=
  { condition := fun ctx =>
      .ok (decide (ctx.performance.averageResponseTime > 5000)),
    action := "reduce_complexity", priority := 1 }

/-- Seeded rule 2 (lines 54–61): success rate below 0.8.  JS divides
`successfulActions / totalInteractions`; with zero interactions that is
`NaN`, and `NaN < 0.8` is `false` — made explicit here. -/
def successRateRule : AdaptationRule :=
  { condition := fun ctx =>
      .ok (if ctx.performance.totalInteractions = 0 then false
        else decide ((ctx.performance.successfulActions : ℚ)
          / (ctx.performance.totalInteractions : ℚ) < 0.8)),
    action := "increase_safety_checks", priority := 2 }

/-- Seeded rule 3 (lines 63–67): memory grown past 1000 records. -/
def memoryRule : AdaptationRule :=
  { condition := fun ctx => .ok (decide (ctx.memoryLength > 1000)),
    action := "cleanup_memory", priority := 3 }

/-- `initializeAdaptationRules` (lines 46–68). -/
def initialAdaptationRules : List (String × AdaptationRule) :=
  [("response_time_optimization", responseTimeRule),
   ("success_rate_improvement", successRateRule),
   ("memory_optimization", memoryRule)]

/-- The `LearningEngine` class fields. -/
structure State : Type where
  patterns : PatternTable
  performanceHistory : List PerformanceRec
  adaptationRules : List (String × AdaptationRule)

/-- The constructor's state: seeded patterns and seeded rules. -/
def initialState : State :=
  { patterns := initialPatterns, performanceHistory := [],
    adaptationRules := initialAdaptationRules }

/-- `reset` (lines 296–302): clear everything, then re-seed — the
constructor state again. -/
def reset (_st : State) : State := initialState

/-- Lower-casing, character by character (JS `toLowerCase`; the inputs of
interest are ASCII, where the two agree). -/
def toLowerStr (s : String) : String :=
  String.mk (s.data.map Char.toLower)

/-- Split at every character satisfying `p` (auxiliary; every separator
character produces a boundary). -/
def splitEach (p : Char → Bool) : List Char → List (List Char)
  | [] => [[]]
  | c :: cs =>
      let r := splitEach p cs
      if p c then [] :: r
      else
        match r with
        | [] => [[c]]
        | w :: ws => (c :: w) :: ws

/-- Drop the empty pieces strictly between the first and last piece:
precisely the difference between splitting at every whitespace character
and splitting at whitespace RUNS. -/
def dropMidEmpties : List (List Char) → List (List Char)
  | [] => []
  | [x] => [x]
  | x :: xs =>
      if x.isEmpty then dropMidEmpties xs else x :: dropMidEmpties xs

/-- JS `content.split(/\s+/)`: pieces between maximal whitespace runs,
with an empty first (last) piece when the string starts (ends) with
whitespace. -/
def jsSplitWhitespace (s : String) : List String :=
  match splitEach Char.isWhitespace s.data with
  | [] => []
  | x :: xs => (x :: dropMidEmpties xs).map String.mk

/-- The bigram loop of `extractPatterns` (lines 97–99). -/
def bigrams : List String → List String
  | w1 :: w2 :: rest => (w1 ++ " " ++ w2) :: bigrams (w2 :: rest)
  | _ => []

/-- The trigram loop of `extractPatterns` (lines 102–104). -/
def trigrams : List String → List String
  | w1 :: w2 :: w3 :: rest =>
      (w1 ++ " " ++ w2 ++ " " ++ w3) :: trigrams (w2 :: w3 :: rest)
  | _ => []

/-- The fixed key-phrase list of `extractPatterns` (lines 107–110). -/
def keyPhrases : List String :=
  ["help me", "how to", "what is", "can you", "please",
   "thank you", "i want", "i need", "show me", "tell me"]

/-- Substring containment on character lists (structural recursion). -/
def listContainsSub (pat : List Char) : List Char → Bool
  | [] => pat.isEmpty
  | c :: cs => pat.isPrefixOf (c :: cs) || listContainsSub pat cs

/-- JS `s.includes(pat)`. -/
def jsIncludes (s pat : String) : Bool :=
  listContainsSub pat.data s.data

/-- `extractPatterns` (lines 92–119): bigrams, then trigrams, then the
matched key phrases, in push order; duplicates are NOT removed. -/
def extractPatterns (content : String) : List String :=
  let words := jsSplitWhitespace (toLowerStr content)
  bigrams words ++ trigrams words
    ++ keyPhrases.filter (fun phrase => jsIncludes (toLowerStr content) phrase)

/-- JS `Math.min` on two numbers. -/
def mathMin (a b : ℚ) : ℚ := if a ≤ b then a else b

/-- JS `Math.max` on two numbers. -/
def mathMax (a b : ℚ) : ℚ := if a ≤ b then b else a

/-- The `forEach` body of `updatePatternRecognition` (lines 122–141): an
unseen key is created at confidence 0.5 with occurrence 1 (and NO
confidence adjustment); a seen key gets its occurrence count bumped and
its confidence moved by +0.1 (capped at 1) when the triggering decision's
confidence exceeded 0.7, else by −0.05 (floored at 0.1). -/
def updateOnePattern (decision : AgentDecision) (t : PatternTable)
    (pattern : String) : PatternTable :=
  match tableGet t pattern with
  | none =>
      tableSet t pattern
        { patterns := [pattern], response := decision.type.str,
          confidence := 0.5, occurrences := some 1 }
  | some pd =>
      tableSet t pattern
        { pd with
          occurrences := some (pd.occurrences.getD 0 + 1),
          confidence :=
            if decision.confidence > 0.7 then
              mathMin 1 (pd.confidence + 0.1)
            else mathMax 0.1 (pd.confidence - 0.05) }

/-- `updatePatternRecognition` (lines 121–142): fold the body over the
extracted keys in order. -/
def updatePatternRecognition (patterns : List String)
    (decision : AgentDecision) (tbl : PatternTable) : PatternTable :=
  patterns.foldl (updateOnePattern decision) tbl

/-- `analyzePerformance` (lines 144–159): push the sample, truncate the
rolling history to the last 1000 entries. -/
def analyzePerformance (decision : AgentDecision) (ctx : LearnContext)
    (hist : List PerformanceRec) : List PerformanceRec :=
  let h := hist ++
    [{ decisionType := decision.type, confidence := decision.confidence,
       responseTime := ctx.responseTime.getD 0,
       success := decide (decision.confidence > 0.5) }]
  if 1000 < h.length then jsSliceLast 1000 h else h

/-- `executeAdaptationRule` (lines 171–191): a total switch over the
action name; its only effect is console output, returned here as the log
lines. -/
def executeAdaptationRule (rule : AdaptationRule) : List String :=
  if rule.action = "reduce_complexity" then
    ["Adapting: Reducing response complexity"]
  else if rule.action = "increase_safety_checks" then
    ["Adapting: Increasing safety checks"]
  else if rule.action = "cleanup_memory" then
    ["Adapting: Cleaning up memory"]
  else
    ["Unknown adaptation action: " ++ rule.action]

/-- The `filter(rule => rule.condition(context))` step of `adaptBehavior`
(line 163): predicates run left to right; the first throw aborts the
whole filter (there is NO per-rule catch anywhere in the class). -/
def selectApplicable (ctx : LearnContext) :
    List AdaptationRule → Except JsError (List AdaptationRule)
  | [] => .ok []
  | r :: rs =>
      match r.condition ctx with
      | .error e => .error e
      | .ok b =>
          match selectApplicable ctx rs with
          | .error e => .error e
          | .ok rest => .ok (if b then r :: rest else rest)

/-- The `sort((a, b) => a.priority - b.priority)` step (line 164):
ascending by priority, stable. -/
def sortByPriority (rules : List AdaptationRule) : List AdaptationRule :=
  rules.mergeSort (fun a b => decide (a.priority ≤ b.priority))

/-- `adaptBehavior` (lines 161–169): filter, sort, then run each
applicable rule in order, collecting the log output. -/
def adaptBehavior (rules : List (String × AdaptationRule))
    (ctx : LearnContext) : Except JsError (List String) :=
  match selectApplicable ctx (rules.map (·.2)) with
  | .error e => .error e
  | .ok applicable =>
      .ok ((sortByPriority applicable).foldl
        (fun acc r => acc ++ executeAdaptationRule r) [])

/-- `learnFromInteraction` (lines 70–90): extract, update the pattern
table, push the performance sample, then adapt.  An error thrown while
adapting escapes the method, but the pattern-table and history mutations
have already been applied (`storeLearningInsights` only logs and is
dropped). -/
def learnFromInteraction (st : State) (message _response : AgentMessage)
    (decision : AgentDecision) (ctx : LearnContext) :
    Except JsError Unit × State :=
  let pats := extractPatterns message.content
  let st1 := { st with
    patterns := updatePatternRecognition pats decision st.patterns }
  let st2 := { st1 with
    performanceHistory :=
      analyzePerformance decision ctx st1.performanceHistory }
  match adaptBehavior st2.adaptationRules ctx with
  | .error e => (.error e, st2)
  | .ok _ => (.ok (), st2)

/-- Inputs to `importLearningData` (lines 276–294): either not JSON
(caught; `console.error`; state unchanged) or a parsed document whose
three optional sections replace the corresponding fields when present
(truthy). -/
inductive LearnImportDoc : Type
  | unparsable (raw : String)
  | parsedDoc (patterns : Option PatternTable)
      (performanceHistory : Option (List PerformanceRec))
      (adaptationRules : Option (List (String × AdaptationRule)))

/-- `importLearningData` (lines 276–294). -/
def importLearningData (st : State) (doc : LearnImportDoc) : State :=
  match doc with
  | .unparsable _ => st
  | .parsedDoc ps hs rs =>
      { patterns := ps.getD st.patterns,
        performanceHistory := hs.getD st.performanceHistory,
        adaptationRules := rs.getD st.adaptationRules }

/-- The metrics record returned by `getPerformanceMetrics`. -/
structure Metrics : Type where
  totalInteractions : Nat
  averageConfidence : ℚ
  successRate : ℚ
  averageResponseTime : ℚ
  deriving DecidableEq, Repr

/-- `getPerformanceMetrics` (lines 237–258): all-zero record on an empty
history, otherwise three averages over the positive history length. -/
def getPerformanceMetrics (hist : List PerformanceRec) : Metrics :=
  if hist.isEmpty then
    { totalInteractions := 0, averageConfidence := 0, successRate := 0,
      averageResponseTime := 0 }
  else
    { totalInteractions := hist.length,
      averageConfidence :=
        (hist.foldl (fun s p => s + p.confidence) 0) / (hist.length : ℚ),
      successRate :=
        ((hist.filter (·.success)).length : ℚ) / (hist.length : ℚ),
      averageResponseTime :=
        (hist.foldl (fun s p => s + p.responseTime) 0) / (hist.length : ℚ) }

/-- A decision with confidence 0.9 (above the 0.7 adjustment
threshold). -/
def decision09 : AgentDecision :=
  { type := .response_generation, confidence := 0.9, reasoning := "high",
    action := .replyTo "help me" }

/-- A decision with confidence 0.3 (below the 0.7 adjustment
threshold). -/
def decision03 : AgentDecision :=
  { type := .response_generation, confidence := 0.3, reasoning := "low",
    action := .replyTo "help me" }

/-- The pattern table after one `learn` on the message `"help me"` with
decision confidence 0.9, starting from the seeded table (where the key
`"help me"` is unseen).  Note the message yields the key TWICE: once as
the bigram `help me` and once as the matched key phrase `help me`. -/
def tblAfterFirst : PatternTable :=
  updatePatternRecognition (extractPatterns "help me") decision09
    initialPatterns

/-- The table after the second `learn`, with decision confidence 0.3. -/
def tblAfterSecond : PatternTable :=
  updatePatternRecognition (extractPatterns "help me") decision03
    tblAfterFirst

/-- C7 counterexample: after the first `learn` call the entry for
`"help me"` has occurrence count 2, not 1 (the duplicate extracted key is
NOT deduplicated: creation at 0.5 is immediately followed by the +0.1
update), and after the second call it is at confidence 0.5 with
occurrence 4, not 0.55 with occurrence 2 as claimed. -/
theorem learn_help_me_counterexample :
    (tableGet tblAfterFirst "help me").map
        (fun pd => (pd.confidence, pd.occurrences))
      = some ((0.6 : ℚ), some 2) ∧
    (tableGet tblAfterFirst "help me").map (fun pd => pd.occurrences)
      ≠ some (some 1) ∧
    (tableGet tblAfterSecond "help me").map
        (fun pd => (pd.confidence, pd.occurrences))
      = some ((0.5 : ℚ), some 4) := by
  refine ⟨by with_unfolding_all decide, by with_unfolding_all decide,
    by with_unfolding_all decide⟩

/-- C7 (amended): the key `"help me"` is extracted twice per `learn` call
on the message `"help me"` (bigram + key phrase, no deduplication), so
the first call (decision confidence 0.9) creates the entry at confidence
0.5 and immediately updates it to 0.6 with occurrence count 2, and the
second call (decision confidence 0.3) applies −0.05 twice, leaving
confidence 0.5 and occurrence count 4. -/
theorem learn_help_me_amended :
    tableGet tblAfterFirst "help me"
      = some { patterns := ["help me"], response := "response_generation",
               confidence := 0.6, occurrences := some 2 } ∧
    tableGet tblAfterSecond "help me"
      = some { patterns := ["help me"], response := "response_generation",
               confidence := 0.5, occurrences := some 4 } := by
  refine ⟨by with_unfolding_all decide, by with_unfolding_all decide⟩

/-- C10: on an empty history `getPerformanceMetrics` returns the exact
all-zero record (no division happens); on every non-empty history the
length is positive and each of the three averages is the genuine quotient
of its sum by that positive length (stated multiplicatively:
`average * length = sum`). -/
theorem getPerformanceMetrics_spec :
    getPerformanceMetrics []
      = { totalInteractions := 0, averageConfidence := 0, successRate := 0,
          averageResponseTime := 0 } ∧
    ∀ hist : List PerformanceRec, hist ≠ [] →
      0 < hist.length ∧
      (getPerformanceMetrics hist).totalInteractions = hist.length ∧
      (getPerformanceMetrics hist).averageConfidence * (hist.length : ℚ)
        = hist.foldl (fun s p => s + p.confidence) 0 ∧
      (getPerformanceMetrics hist).successRate * (hist.length : ℚ)
        = ((hist.filter (·.success)).length : ℚ) ∧
      (getPerformanceMetrics hist).averageResponseTime * (hist.length : ℚ)
        = hist.foldl (fun s p => s + p.responseTime) 0 := by
  refine ⟨rfl, ?_⟩
  intro hist h
  have hlen : 0 < hist.length := List.length_pos.mpr h
  have hq : (hist.length : ℚ) ≠ 0 := by
    exact_mod_cast Nat.pos_iff_ne_zero.mp hlen
  unfold getPerformanceMetrics
  rw [if_neg (by simpa using h)]
  exact ⟨hlen, rfl, div_mul_cancel₀ _ hq, div_mul_cancel₀ _ hq,
    div_mul_cancel₀ _ hq⟩

/-- A concrete performance sample. -/
def samplePerf : PerformanceRec :=
  { decisionType := .planning, confidence := 0.7, responseTime := 10,
    success := true }

/-- Witness for C10: the non-empty case at a one-sample history. -/
theorem getPerformanceMetrics_spec_witness :
    0 < [samplePerf].length ∧
    (getPerformanceMetrics [samplePerf]).totalInteractions
      = [samplePerf].length ∧
    (getPerformanceMetrics [samplePerf]).averageConfidence
        * ([samplePerf].length : ℚ)
      = [samplePerf].foldl (fun s p => s + p.confidence) 0 ∧
    (getPerformanceMetrics [samplePerf]).successRate
        * ([samplePerf].length : ℚ)
      = (([samplePerf].filter (·.success)).length : ℚ) ∧
    (getPerformanceMetrics [samplePerf]).averageResponseTime
        * ([samplePerf].length : ℚ)
      = [samplePerf].foldl (fun s p => s + p.responseTime) 0 :=
  getPerformanceMetrics_spec.2 [samplePerf] (List.cons_ne_nil _ _)

/-- The pattern-confidence invariant: every entry of the table has its
confidence in the closed interval [0.1, 1.0]. -/
def PatternsInv (tbl : PatternTable) : Prop :=
  ∀ k pd, tableGet tbl k = some pd →
    (0.1 : ℚ) ≤ pd.confidence ∧ pd.confidence ≤ 1

/-- `tableGet` after `tableSet`: the written key reads back the written
value, every other key is untouched. -/
theorem tableGet_tableSet (tbl : PatternTable) (k : String)
    (v : PatternData) (k' : String) :
    tableGet (tableSet tbl k v) k'
      = if k = k' then some v else tableGet tbl k' := by
  induction tbl with
  | nil =>
      simp only [tableSet, tableGet]
  | cons a rest ih =>
      obtain ⟨ka, va⟩ := a
      by_cases hk : ka = k
      · subst hk
        by_cases hk' : ka = k'
        · subst hk'
          simp [tableSet, tableGet]
        · simp [tableSet, tableGet, hk']
      · by_cases hk' : ka = k'
        · subst hk'
          have hkk : ¬ k = ka := fun h => hk h.symm
          simp [tableSet, tableGet, hk, hkk]
        · simp [tableSet, tableGet, hk, hk', ih]

/-- One `forEach` step of the pattern update preserves the confidence
interval: creation starts at 0.5, an increase is capped at 1, a decrease
is floored at 0.1. -/
theorem inv_updateOnePattern (d : AgentDecision) (tbl : PatternTable)
    (p : String) (h : PatternsInv tbl) :
    PatternsInv (updateOnePattern d tbl p) := by
  intro k pd hget
  unfold updateOnePattern at hget
  cases hpd : tableGet tbl p with
  | none =>
      rw [hpd, tableGet_tableSet] at hget
      by_cases hk : p = k
      · rw [if_pos hk] at hget
        injection hget with hget
        subst hget
        norm_num
      · rw [if_neg hk] at hget
        exact h k pd hget
  | some pd0 =>
      rw [hpd, tableGet_tableSet] at hget
      by_cases hk : p = k
      · rw [if_pos hk] at hget
        injection hget with hget
        subst hget
        obtain ⟨h1, h2⟩ := h p pd0 hpd
        dsimp only
        unfold mathMin mathMax
        constructor <;> split <;> split <;> linarith
      · rw [if_neg hk] at hget
        exact h k pd hget

/-- Folding the update over any extracted key list preserves the
invariant. -/
theorem inv_updatePatternRecognition (pats : List String)
    (d : AgentDecision) (tbl : PatternTable) (h : PatternsInv tbl) :
    PatternsInv (updatePatternRecognition pats d tbl) := by
  unfold updatePatternRecognition
  induction pats generalizing tbl with
  | nil => exact h
  | cons p ps ih => exact ih _ (inv_updateOnePattern d tbl p h)

/-- The five seeded entries are inside the interval. -/
theorem inv_initialPatterns : PatternsInv initialPatterns := by
  intro k pd h
  simp only [initialPatterns, tableGet] at h
  split_ifs at h <;> injection h with h <;> subst h <;>
    constructor <;> norm_num

/-- The learning-engine operations of the amended C8: a `learn` call
(with arbitrary message, decision and context) or a `reset`. -/
inductive LearnOp : Type
  | learn (message response : AgentMessage) (decision : AgentDecision)
      (ctx : LearnContext)
  | resetOp

/-- Apply one operation to the engine state (a `learn` keeps its state
mutations even when rule evaluation throws). -/
def applyOp (st : State) : LearnOp → State
  | .learn m r d c => (learnFromInteraction st m r d c).2
  | .resetOp => reset st

/-- A `learn` rewrites the pattern table exactly through
`updatePatternRecognition`, whether or not the adaptation step throws. -/
theorem patterns_applyOp_learn (st : State) (m r : AgentMessage)
    (d : AgentDecision) (c : LearnContext) :
    (applyOp st (.learn m r d c)).patterns
      = updatePatternRecognition (extractPatterns m.content) d
          st.patterns := by
  show ((learnFromInteraction st m r d c).2).patterns = _
  unfold learnFromInteraction
  dsimp only
  split <;> rfl

/-- C8 (amended): along every sequence of `learn` and `reset` operations
from the freshly seeded engine, every pattern entry's confidence stays in
[0.1, 1.0] — creation starts at 0.5 or a seeded value in range, every
increase is capped at 1.0, every decrease is floored at 0.1.  (The
`importLearningData` operation is excluded: it installs imported entries
verbatim and breaks the invariant, see the counterexample.) -/
theorem pattern_confidence_invariant (ops : List LearnOp) :
    PatternsInv ((ops.foldl applyOp initialState).patterns) := by
  have key : ∀ (ops : List LearnOp) (st : State), PatternsInv st.patterns →
      PatternsInv ((ops.foldl applyOp st).patterns) := by
    intro ops
    induction ops with
    | nil => intro st h; exact h
    | cons op rest ih =>
        intro st h
        refine ih (applyOp st op) ?_
        cases op with
        | learn m r d c =>
            rw [patterns_applyOp_learn]
            exact inv_updatePatternRecognition _ d _ h
        | resetOp => exact inv_initialPatterns
  exact key ops initialState inv_initialPatterns

/-- A pattern entry with confidence 5, far outside [0.1, 1.0]. -/
def badEntry : PatternData :=
  { patterns := ["x"], response := "r", confidence := 5,
    occurrences := some 1 }

/-- An import document carrying the out-of-range entry. -/
def badDoc : LearnImportDoc := .parsedDoc (some [("x", badEntry)]) none none

/-- C8 counterexample: one `importLearningData` call — a learning-engine
operation — leaves the table with an entry whose confidence is 5,
violating the claimed [0.1, 1.0] interval. -/
theorem importLearningData_confidence_counterexample :
    tableGet (importLearningData initialState badDoc).patterns "x"
      = some badEntry ∧ ¬ (badEntry.confidence ≤ 1) := by
  constructor
  · rfl
  · norm_num [badEntry]

/-- A throwing predicate (the first rule, by priority) aborts the whole
filter pass: rules after it are never evaluated and the error propagates
out of `adaptBehavior`. -/
theorem selectApplicable_abort (ctx : LearnContext) (r : AdaptationRule)
    (e : JsError) (hr : r.condition ctx = .error e) :
    ∀ pre : List AdaptationRule,
      (∀ q ∈ pre, ∃ b, q.condition ctx = .ok b) →
      ∀ post, selectApplicable ctx (pre ++ r :: post) = .error e := by
  intro pre
  induction pre with
  | nil =>
      intro _ post
      simp only [List.nil_append, selectApplicable, hr]
  | cons q pre' ih =>
      intro hpre post
      obtain ⟨b, hb⟩ := hpre q (List.mem_cons_self q pre')
      have ih' := ih (fun q' hq' => hpre q' (List.mem_cons_of_mem _ hq'))
        post
      rw [List.cons_append]
      simp only [selectApplicable, hb, ih']

/-- C9 (amended): there is NO per-rule error catching in `adaptBehavior`.
1. Any error from the filter step is the whole pass's result.
2. With every rule before `r` evaluating cleanly and `r`'s predicate
   throwing, the filter (and hence the pass) aborts with `r`'s error —
   the rules after `r` are never evaluated or executed.
3. When every predicate evaluates cleanly, the applicable rules are
   executed in ascending priority order (a sorted permutation of the
   applicable list), accumulating their log output. -/
theorem adaptBehavior_amended :
    (∀ (rules : List (String × AdaptationRule)) (ctx : LearnContext)
        (e : JsError),
        selectApplicable ctx (rules.map (·.2)) = .error e →
        adaptBehavior rules ctx = .error e) ∧
    (∀ (pre post : List AdaptationRule) (r : AdaptationRule)
        (ctx : LearnContext) (e : JsError),
        (∀ q ∈ pre, ∃ b, q.condition ctx = .ok b) →
        r.condition ctx = .error e →
        selectApplicable ctx (pre ++ r :: post) = .error e) ∧
    (∀ (rules : List (String × AdaptationRule)) (ctx : LearnContext)
        (app : List AdaptationRule),
        selectApplicable ctx (rules.map (·.2)) = .ok app →
        ∃ sorted : List AdaptationRule, sorted.Perm app ∧
          List.Pairwise (fun a b => a.priority ≤ b.priority) sorted ∧
          adaptBehavior rules ctx
            = .ok (sorted.foldl
                (fun acc r => acc ++ executeAdaptationRule r) [])) := by
  refine ⟨?_, ?_, ?_⟩
  · intro rules ctx e h
    simp only [adaptBehavior, h]
  · intro pre post r ctx e hpre hr
    exact selectApplicable_abort ctx r e hr pre hpre post
  · intro rules ctx app h
    refine ⟨sortByPriority app, List.mergeSort_perm app _, ?_, ?_⟩
    · have htrans : ∀ a b c : AdaptationRule,
          decide (a.priority ≤ b.priority) = true →
          decide (b.priority ≤ c.priority) = true →
          decide (a.priority ≤ c.priority) = true := by
        intro a b c hab hbc
        simp only [decide_eq_true_eq] at hab hbc ⊢
        omega
      have htotal : ∀ a b : AdaptationRule,
          (decide (a.priority ≤ b.priority)
            || decide (b.priority ≤ a.priority)) = true := by
        intro a b
        rcases Nat.le_total a.priority b.priority with hab | hab <;>
          simp [hab]
      have hs := @List.sorted_mergeSort AdaptationRule
        (fun a b : AdaptationRule => decide (a.priority ≤ b.priority))
        htrans htotal app
      exact hs.imp (fun hd => of_decide_eq_true hd)
    · simp only [adaptBehavior, h, sortByPriority]

/-- A rule whose predicate always throws. -/
def ruleBoom : AdaptationRule :=
  { condition := fun _ => .error (.thrown "rule condition crashed"),
    action := "reduce_complexity", priority := 1 }

/-- A rule whose predicate always holds. -/
def ruleAlways : AdaptationRule :=
  { condition := fun _ => .ok true, action := "cleanup_memory",
    priority := 2 }

/-- An arbitrary learn context. -/
def ctx0 : LearnContext :=
  { performance := perf0, memoryLength := 0, responseTime := none }

/-- Witness for C9: the abort path at concrete rules, and the clean path
executing the applicable rule. -/
theorem adaptBehavior_amended_witness :
    adaptBehavior [("a", ruleBoom), ("b", ruleAlways)] ctx0
      = .error (.thrown "rule condition crashed") ∧
    selectApplicable ctx0 [ruleAlways, ruleBoom]
      = .error (.thrown "rule condition crashed") ∧
    (∃ sorted : List AdaptationRule, sorted.Perm [ruleAlways] ∧
        List.Pairwise (fun a b => a.priority ≤ b.priority) sorted ∧
        adaptBehavior [("b", ruleAlways)] ctx0
          = .ok (sorted.foldl
              (fun acc r => acc ++ executeAdaptationRule r) [])) := by
  refine ⟨?_, ?_, ?_⟩
  · exact adaptBehavior_amended.1 [("a", ruleBoom), ("b", ruleAlways)]
      ctx0 _ rfl
  · refine adaptBehavior_amended.2.1 [ruleAlways] [] ruleBoom ctx0 _
      ?_ rfl
    intro q hq
    rw [List.mem_singleton] at hq
    subst hq
    exact ⟨true, rfl⟩
  · exact adaptBehavior_amended.2.2 [("b", ruleAlways)] ctx0
      [ruleAlways] rfl

/-- C9 counterexample: with the throwing rule first, `adaptBehavior`
returns its error — no log line of the second, applicable rule is ever
produced — although the same second rule executes fine on its own.  A
single failing rule thus DOES abort the rest of the adaptation pass, and
the failure is not caught per-rule but propagated. -/
theorem adaptBehavior_abort_counterexample :
    adaptBehavior [("a", ruleBoom), ("b", ruleAlways)] ctx0
      = .error (.thrown "rule condition crashed") ∧
    adaptBehavior [("b", ruleAlways)] ctx0
      = .ok ["Adapting: Cleaning up memory"] := by
  constructor
  · rfl
  · simp [adaptBehavior, selectApplicable, ruleAlways, sortByPriority,
      executeAdaptationRule]

end LearningEngine

end Omniorbase
